import Mathlib

/-!
# Verification of the `configoration` section tree (src/section.go)

Shallow embedding of the Section-tree core of the `configoration`
repository.  The Go code under `src/section.go` is embedded as Lean
functions over an explicit tree of configuration values; Go's
`(T, error)` returns become `Except GoError T`.  Go's two distinct
absent section values are kept apart: the typed-nil `*section` pointer
is the `Section.nil` constructor (pointer-receiver methods dispatch on
it and their `s == nil` checks run), while the nil `Section` interface
value produced by the literal `return nil` in `GetSection`
(src/section.go:101) is `SectionIface.nilIface`, on which any method
call is a runtime panic, modelled by `Outcome.panics`.

Pieces of the repository referenced by `section.go` but whose defining
files are not under `src/` (the `ConfigMap` type alias, the `ErrNil`
and `ErrInvalidType` error values, the `Delimiter` variable) and the Go
standard-library functions it calls (`strings.Split`, `strconv.Atoi`,
`strconv.ParseBool`, `strconv.ParseFloat`, `fmt.Sprintf("%v", ·)`) are
modelled explicitly below, each with a doc comment saying what it
models.
-/

namespace Configoration

mutual
/-- A stored value.  Modelled from the spec: the repository file
declaring `type ConfigMap map[string]interface{}` is not under `src/`;
the spec's §3 data model says a value is a scalar (string, integer,
float, boolean) or a nested mapping.  Go `float64` payloads are
modelled as exact rationals `ℚ` (IEEE-754 rounding is not modelled; no
claim below depends on it). -/
inductive Value where
  | vStr (s : String)
  | vInt (n : Int)
  | vBool (b : Bool)
  | vFloat (q : ℚ)
  | vMap (m : ConfigMap)
deriving DecidableEq

/-- A nested mapping from string keys to values.  Modelled from the
spec as an association list: a Go `map[string]interface{}` has unique
keys, so first-match lookup is faithful. -/
inductive ConfigMap where
  | nil
  | cons (k : String) (v : Value) (rest : ConfigMap)
deriving DecidableEq
end

/-- Builds a `ConfigMap` from a list of entries (in order). -/
def ConfigMap.ofList : List (String × Value) → ConfigMap
  | [] => .nil
  | (k, v) :: rest => .cons k v (ConfigMap.ofList rest)

/-- Go map read `m[k]`: `some v` when the key is present.  First match
wins (Go maps have unique keys, so this is faithful). -/
def ConfigMap.lookup : ConfigMap → String → Option Value
  | .nil, _ => none
  | .cons k v rest, key => if k = key then some v else rest.lookup key

/-- Errors.  Modelled from the spec: `ErrNil` and `ErrInvalidType` are
declared in a repository file not under `src/` (only `ErrNil` is used
by `section.go`); the spec's §7 names them AbsentError and
InvalidTypeError.  `numError fn input reason` models the `*NumError`
values returned by Go's `strconv` parse functions (carrying the
function name, the offending input, and the reason), which are distinct
from both sentinels. -/
inductive GoError where
  | errNil
  | errInvalidType
  | numError (fn : String) (input : String) (reason : String)
deriving DecidableEq

deriving instance DecidableEq for Except

/-- The path delimiter.  Modelled from the spec: `Delimiter` is declared
in a repository file not under `src/`; the spec's §6 says it is a
configurable token with default `":"`.  The default single-character
delimiter is used throughout. -/
def Delimiter : Char := ':'

/-- Model of Go `strings.Split(s, sep)` for a one-character separator:
splits around every occurrence of `sep`; the empty string yields the
single segment `[]`. -/
def splitChars (sep : Char) : List Char → List (List Char)
  | [] => [[]]
  | c :: rest =>
      match splitChars sep rest with
      | [] => [[]]
      | seg :: segs =>
          if c = sep then [] :: seg :: segs else (c :: seg) :: segs

/-- `splitSections` (src/section.go:256-258): splits the key by the
`Delimiter`. -/
def splitSections (key : String) : List String :=
  (splitChars Delimiter key.data).map fun l => String.mk l

/-- A `*section` pointer: either the typed nil pointer or a concrete
`section` struct wrapping a `ConfigMap` (src/section.go:93-96; the
`sync.Mutex` field only serializes reads and carries no data, so it has
no counterpart here).  `.nil` is the typed nil `*section`: Go methods
with pointer receivers dispatch on it and their `s == nil` checks run.
It is distinct from the nil value of the `Section` interface type,
which `SectionIface` below models and on which any method call is a
runtime panic. -/
inductive Section where
  | nil
  | mk (m : ConfigMap)
deriving DecidableEq

/-- `IsNil` (src/section.go:231-233): whether the receiver is the nil
pointer. -/
def Section.IsNil : Section → Bool
  | .nil => true
  | .mk _ => false

/-- A value of the `Section` interface type (src/section.go:18-89).
Go gives it two distinct absent forms: the nil interface produced by
the literal `return nil` (src/section.go:101), on which any method call
panics at runtime; and an interface wrapping a `*section` pointer
(`return s`, src/section.go:105) — possibly the typed-nil pointer — on
which method calls dispatch to the pointer-receiver methods. -/
inductive SectionIface where
  | nilIface
  | mk (p : Section)
deriving DecidableEq

/-- The observable result of calling a method on a `SectionIface`
value: a runtime panic (method call on the nil interface) or a normal
return. -/
inductive Outcome (α : Type) where
  | panics
  | returns (a : α)
deriving DecidableEq

/-- Sequencing of interface-method calls: once a call panics, nothing
further runs. -/
def Outcome.bind {α β : Type} : Outcome α → (α → Outcome β) → Outcome β
  | .panics, _ => .panics
  | .returns a, f => f a

/-- The private `getSection` (src/section.go:237-251): reads
`v := s.m[sec]`; if the value is a `ConfigMap` wrap it in a fresh
section, otherwise (key missing or value a scalar) return nil. -/
def getSectionPriv (m : ConfigMap) (sec : String) : Section :=
  match m.lookup sec with
  | some (.vMap vc) => .mk vc
  | _ => .nil

/-- The loop body of `GetSection` (src/section.go:98-106): for each
selector, if the current pointer is nil, execute `return nil`
(src/section.go:101) — the nil interface; otherwise descend via the
private `getSection`.  When the loop completes, `return s`
(src/section.go:105) wraps the current (possibly typed-nil) pointer in
the interface. -/
def getSectionLoopIface : Section → List String → SectionIface
  | s, [] => .mk s
  | .nil, _ :: _ => .nilIface
  | .mk m, sel :: rest => getSectionLoopIface (getSectionPriv m sel) rest

/-- `GetSection` (src/section.go:98-106); its return type is the
`Section` interface. -/
def Section.GetSection (s : Section) (key : String) : SectionIface :=
  getSectionLoopIface s (splitSections key)

/-- The selector walk of `GetValue` (src/section.go:113-132) on a
non-nil receiver: all selectors but the last must resolve to nested
sections via the private `getSection` (returning `ErrNil` when one
does not); the last selector is looked up directly in the map,
returning `ErrNil` when missing and the raw stored value otherwise.
The `[]` case is dead code: `splitSections` never returns an empty
list (proved below in `splitSections_ne_nil`). -/
def getValueGo (m : ConfigMap) : List String → Except GoError Value
  | [] => .error .errNil
  | [last] =>
      match m.lookup last with
      | some v => .ok v
      | none => .error .errNil
  | sel :: rest =>
      match getSectionPriv m sel with
      | .nil => .error .errNil
      | .mk m2 => getValueGo m2 rest

/-- `GetValue` (src/section.go:108-133): `ErrNil` on a nil receiver,
otherwise the selector walk over the split key. -/
def Section.GetValue : Section → String → Except GoError Value
  | .nil, _ => .error .errNil
  | .mk m, key => getValueGo m (splitSections key)

/-- Numeric value of a run of decimal digit characters. -/
def digitsToNat (cs : List Char) : Nat :=
  cs.foldl (fun a c => a * 10 + (c.toNat - 48)) 0

/-- Display form of a `ℚ` payload; stands in for Go's `%g` rendering of
a `float64` (shortest decimal form).  No claim below depends on how a
float renders, only on the rendering being some string. -/
def ratDisplay (q : ℚ) : String :=
  if q.den = 1 then toString q.num
  else toString q.num ++ "/" ++ toString q.den

mutual
/-- Model of `valToString` (src/section.go:263-265), i.e. of
`fmt.Sprintf("%v", v)`: a string renders as itself, an int in decimal,
a bool as `true`/`false`, a map as `map[k1:v1 k2:v2]`.  (Go's `fmt`
prints map keys in sorted order; entries are rendered here in stored
order, which no claim depends on.) -/
def valToString : Value → String
  | .vStr s => s
  | .vInt n => toString n
  | .vBool b => if b then "true" else "false"
  | .vFloat q => ratDisplay q
  | .vMap m => "map[" ++ mapDisplay m ++ "]"

/-- Entry list of a map under `%v`: `k:v` pairs separated by spaces. -/
def mapDisplay : ConfigMap → String
  | .nil => ""
  | .cons k v .nil => k ++ ":" ++ valToString v
  | .cons k v rest => k ++ ":" ++ valToString v ++ " " ++ mapDisplay rest
end

/-- Model of Go `strconv.Atoi` (= `ParseInt(s, 10, 0)` with 64-bit
ints): optional sign, then one or more decimal digits; syntax failures
and out-of-64-bit-range values yield a `*NumError` with function name
`"Atoi"`.  (Digit-group underscores are rejected, as Go does for a
fixed base.) -/
def atoi (s : String) : Except GoError Int :=
  let (neg, digits) :=
    match s.data with
    | '+' :: rest => (false, rest)
    | '-' :: rest => (true, rest)
    | l => (false, l)
  if digits.isEmpty ∨ ¬ digits.all Char.isDigit then
    .error (.numError "Atoi" s "invalid syntax")
  else
    let v : Int := if neg then -(digitsToNat digits : Int) else (digitsToNat digits : Int)
    if v < -(2 ^ 63) ∨ (2 ^ 63 - 1 : Int) < v then
      .error (.numError "Atoi" s "value out of range")
    else .ok v

/-- Model of Go `strconv.ParseBool`: exactly the vocabulary
`1 t T TRUE true True` for `true` and `0 f F FALSE false False` for
`false`; anything else is a `*NumError` with function name
`"ParseBool"`. -/
def parseBool (s : String) : Except GoError Bool :=
  if s = "1" ∨ s = "t" ∨ s = "T" ∨ s = "TRUE" ∨ s = "true" ∨ s = "True" then
    .ok true
  else if s = "0" ∨ s = "f" ∨ s = "F" ∨ s = "FALSE" ∨ s = "false" ∨ s = "False" then
    .ok false
  else .error (.numError "ParseBool" s "invalid syntax")

/-- Model of Go `strconv.ParseFloat(s, 64)` over exact rationals:
optional sign, decimal digits with optional fraction, optional decimal
exponent; failures yield a `*NumError` with function name
`"ParseFloat"`.  (IEEE-754 rounding, hex floats, `inf`/`nan` forms and
range errors are not modelled; no claim below depends on them.) -/
def parseFloat (s : String) : Except GoError ℚ :=
  let err : Except GoError ℚ := .error (.numError "ParseFloat" s "invalid syntax")
  let (neg, l1) :=
    match s.data with
    | '+' :: r => (false, r)
    | '-' :: r => (true, r)
    | l => (false, l)
  let (ip, l2) := l1.span Char.isDigit
  let (fp, l3) :=
    match l2 with
    | '.' :: r => r.span Char.isDigit
    | _ => ([], l2)
  if ip.isEmpty ∧ fp.isEmpty then err
  else
    let mant : ℚ :=
      (digitsToNat ip : ℚ) + (digitsToNat fp : ℚ) / ((10 : ℚ) ^ fp.length)
    let signed : ℚ := if neg then -mant else mant
    match l3 with
    | [] => .ok signed
    | e :: r =>
      if e = 'e' ∨ e = 'E' then
        let (eneg, r1) :=
          match r with
          | '+' :: rr => (false, rr)
          | '-' :: rr => (true, rr)
          | rr => (false, rr)
        let (ed, r2) := r1.span Char.isDigit
        if ed.isEmpty ∨ ¬ r2.isEmpty then err
        else
          let mag : ℚ := (10 : ℚ) ^ digitsToNat ed
          .ok (if eneg then signed / mag else signed * mag)
      else err

/-- `GetString` (src/section.go:135-147): propagate `GetValue`'s error;
return a string value directly, and render any other value via
`valToString` — never failing once a value was found. -/
def Section.GetString (s : Section) (key : String) : Except GoError String :=
  match s.GetValue key with
  | .error e => .error e
  | .ok (.vStr t) => .ok t
  | .ok v => .ok (valToString v)

/-- `GetInt` (src/section.go:149-161): propagate `GetValue`'s error;
return an int value directly, and otherwise return
`strconv.Atoi(valToString(v))`'s result — value and error. -/
def Section.GetInt (s : Section) (key : String) : Except GoError Int :=
  match s.GetValue key with
  | .error e => .error e
  | .ok (.vInt n) => .ok n
  | .ok v => atoi (valToString v)

/-- `GetBool` (src/section.go:163-175): propagate `GetValue`'s error;
return a bool value directly, and otherwise return
`strconv.ParseBool(valToString(v))`'s result. -/
def Section.GetBool (s : Section) (key : String) : Except GoError Bool :=
  match s.GetValue key with
  | .error e => .error e
  | .ok (.vBool b) => .ok b
  | .ok v => parseBool (valToString v)

/-- `GetFloat64` (src/section.go:177-189): propagate `GetValue`'s
error; return a float value directly, and otherwise return
`strconv.ParseFloat(valToString(v), 64)`'s result. -/
def Section.GetFloat64 (s : Section) (key : String) : Except GoError ℚ :=
  match s.GetValue key with
  | .error e => .error e
  | .ok (.vFloat q) => .ok q
  | .ok v => parseFloat (valToString v)

/-- `GetValueOrDef` (src/section.go:191-197): `GetValue`'s value on
success, the default on any error. -/
def Section.GetValueOrDef (s : Section) (key : String) (d : Value) : Value :=
  match s.GetValue key with
  | .ok v => v
  | .error _ => d

/-- `GetStringOrDef` (src/section.go:199-205). -/
def Section.GetStringOrDef (s : Section) (key : String) (d : String) : String :=
  match s.GetString key with
  | .ok v => v
  | .error _ => d

/-- `GetIntOrDef` (src/section.go:207-213). -/
def Section.GetIntOrDef (s : Section) (key : String) (d : Int) : Int :=
  match s.GetInt key with
  | .ok v => v
  | .error _ => d

/-- `GetBoolOrDef` (src/section.go:215-221).  (Go declares the return
type `interface{}`; the returned value is always the bool `v` or `def`,
modelled as `Bool`.) -/
def Section.GetBoolOrDef (s : Section) (key : String) (d : Bool) : Bool :=
  match s.GetBool key with
  | .ok v => v
  | .error _ => d

/-- `GetFloat64OrDef` (src/section.go:223-229). -/
def Section.GetFloat64OrDef (s : Section) (key : String) (d : ℚ) : ℚ :=
  match s.GetFloat64 key with
  | .ok v => v
  | .error _ => d

/-! ## Interface-method dispatch

Calling a method on a `Section` interface value, as chained caller code
does (`c.GetSection("x").GetSection("y").GetString("z")`): on the nil
interface the call panics; on a wrapped (possibly typed-nil) pointer it
dispatches to the pointer-receiver method. -/

/-- Dispatch of `.GetSection(key)` on an interface value. -/
def SectionIface.getSection : SectionIface → String → Outcome SectionIface
  | .nilIface, _ => .panics
  | .mk p, key => .returns (p.GetSection key)

/-- Dispatch of `.GetValue(key)` on an interface value. -/
def SectionIface.getValue : SectionIface → String → Outcome (Except GoError Value)
  | .nilIface, _ => .panics
  | .mk p, key => .returns (p.GetValue key)

/-- Dispatch of `.GetString(key)` on an interface value. -/
def SectionIface.getString : SectionIface → String → Outcome (Except GoError String)
  | .nilIface, _ => .panics
  | .mk p, key => .returns (p.GetString key)

/-- Dispatch of `.IsNil()` on an interface value. -/
def SectionIface.isNil : SectionIface → Outcome Bool
  | .nilIface => .panics
  | .mk p => .returns p.IsNil

/-! ## Specification-side definitions

These follow the words of the spec (§4.2 and §8), to be compared with
the code-derived functions above. -/

/-- Spec-side (§4.2): the string `GetString` should return for a found
value — a string directly, anything else via its canonical display
form. -/
def stringOfValue : Value → String
  | .vStr t => t
  | v => valToString v

/-- Spec-side (§8): whether every segment of the list, in order,
resolves to a nested `ConfigMapping` value starting from `m`. -/
def chainResolves : ConfigMap → List String → Bool
  | _, [] => true
  | m, sel :: rest =>
      match m.lookup sel with
      | some (.vMap m2) => chainResolves m2 rest
      | _ => false

/-- Spec-side (§4.2 `getValue`): resolve every listed segment to a
nested mapping, `none` when one fails. -/
def specWalk : ConfigMap → List String → Option ConfigMap
  | m, [] => some m
  | m, sel :: rest =>
      match m.lookup sel with
      | some (.vMap m2) => specWalk m2 rest
      | _ => none

/-- Spec-side (§4.2 `getValue`), on an already-split segment list: all
segments except the last must resolve to nested mappings, else
AbsentError; the final segment is looked up as a key in the last
resolved mapping, AbsentError when missing, else the raw stored
value. -/
def specGetValueSegs (m : ConfigMap) (sels : List String) : Except GoError Value :=
  match sels.getLast? with
  | none => .error .errNil
  | some last =>
      match specWalk m sels.dropLast with
      | none => .error .errNil
      | some m2 =>
          match m2.lookup last with
          | some v => .ok v
          | none => .error .errNil

/-- Spec-side (§4.2 `getValue`): split the path, then resolve the
segments per `specGetValueSegs`. -/
def specGetValue (m : ConfigMap) (key : String) : Except GoError Value :=
  specGetValueSegs m (splitSections key)

/-! ## State-passing embedding

`section.go` runs against Go maps living on the heap.  To state the
read-only invariant (claim C9) the operations are re-embedded in
state-passing style: every Go map access `s.m[k]` becomes `mapReadST`,
which yields the looked-up value together with the map (a Go map read
expression does not modify the map — and `section.go` contains no map
write statement at all); when an operation descends into a sub-map read
out of a parent entry, the sub-map's post-state is re-installed into
the parent entry by `mapWriteBack`, so that the heap sharing of nested
Go maps is represented.  The claim theorem proves the post-state always
equals the input mapping. -/

/-- The Go map read expression `s.m[k]`, in state-passing style. -/
def mapReadST (m : ConfigMap) (k : String) : Option Value × ConfigMap :=
  (m.lookup k, m)

/-- Re-installs a value at the first occurrence of a key (heap
write-back of a sub-map borrowed from a parent entry). -/
def mapWriteBack : ConfigMap → String → Value → ConfigMap
  | .nil, _, _ => .nil
  | .cons k v rest, key, nv =>
      if k = key then .cons k nv rest else .cons k v (mapWriteBack rest key nv)

/-- State-passing form of the private `getSection`
(src/section.go:237-251) composed with the `GetSection` loop
(src/section.go:98-106), on a non-nil receiver: when a selector fails
with segments still pending, the next iteration's nil check executes
`return nil` (the nil interface); when the failure is at the final
segment, the loop completes and `return s` wraps the typed-nil
pointer. -/
def getSectionLoopST (m : ConfigMap) : List String → SectionIface × ConfigMap
  | [] => (.mk (.mk m), m)
  | sel :: rest =>
      let (v, m1) := mapReadST m sel
      match v with
      | some (.vMap m2) =>
          let (res, m2p) := getSectionLoopST m2 rest
          (res, mapWriteBack m1 sel (.vMap m2p))
      | _ =>
          (match rest with
           | [] => (.mk Section.nil, m1)
           | _ :: _ => (.nilIface, m1))

/-- State-passing form of the selector walk of `GetValue`
(src/section.go:113-132). -/
def getValueGoST (m : ConfigMap) : List String → Except GoError Value × ConfigMap
  | [] => (.error .errNil, m)
  | [last] =>
      let (v, m1) := mapReadST m last
      (match v with
       | some v => .ok v
       | none => .error .errNil, m1)
  | sel :: rest =>
      let (v, m1) := mapReadST m sel
      match v with
      | some (.vMap m2) =>
          let (res, m2p) := getValueGoST m2 rest
          (res, mapWriteBack m1 sel (.vMap m2p))
      | _ => (.error .errNil, m1)

/-- State-passing `GetSection` on a non-nil receiver. -/
def GetSectionST (m : ConfigMap) (key : String) : SectionIface × ConfigMap :=
  getSectionLoopST m (splitSections key)

/-- State-passing `GetValue` on a non-nil receiver. -/
def GetValueST (m : ConfigMap) (key : String) : Except GoError Value × ConfigMap :=
  getValueGoST m (splitSections key)

/-- State-passing `GetString` (the coercion itself is pure string
work). -/
def GetStringST (m : ConfigMap) (key : String) : Except GoError String × ConfigMap :=
  let (r, m1) := GetValueST m key
  (match r with
   | .error e => .error e
   | .ok (.vStr t) => .ok t
   | .ok v => .ok (valToString v), m1)

/-- State-passing `GetInt`. -/
def GetIntST (m : ConfigMap) (key : String) : Except GoError Int × ConfigMap :=
  let (r, m1) := GetValueST m key
  (match r with
   | .error e => .error e
   | .ok (.vInt n) => .ok n
   | .ok v => atoi (valToString v), m1)

/-- State-passing `GetBool`. -/
def GetBoolST (m : ConfigMap) (key : String) : Except GoError Bool × ConfigMap :=
  let (r, m1) := GetValueST m key
  (match r with
   | .error e => .error e
   | .ok (.vBool b) => .ok b
   | .ok v => parseBool (valToString v), m1)

/-- State-passing `GetFloat64`. -/
def GetFloat64ST (m : ConfigMap) (key : String) : Except GoError ℚ × ConfigMap :=
  let (r, m1) := GetValueST m key
  (match r with
   | .error e => .error e
   | .ok (.vFloat q) => .ok q
   | .ok v => parseFloat (valToString v), m1)

/-- State-passing `GetValueOrDef`. -/
def GetValueOrDefST (m : ConfigMap) (key : String) (d : Value) : Value × ConfigMap :=
  let (r, m1) := GetValueST m key
  (match r with | .ok v => v | .error _ => d, m1)

/-- State-passing `GetStringOrDef`. -/
def GetStringOrDefST (m : ConfigMap) (key : String) (d : String) : String × ConfigMap :=
  let (r, m1) := GetStringST m key
  (match r with | .ok v => v | .error _ => d, m1)

/-- State-passing `GetIntOrDef`. -/
def GetIntOrDefST (m : ConfigMap) (key : String) (d : Int) : Int × ConfigMap :=
  let (r, m1) := GetIntST m key
  (match r with | .ok v => v | .error _ => d, m1)

/-- State-passing `GetBoolOrDef`. -/
def GetBoolOrDefST (m : ConfigMap) (key : String) (d : Bool) : Bool × ConfigMap :=
  let (r, m1) := GetBoolST m key
  (match r with | .ok v => v | .error _ => d, m1)

/-- State-passing `GetFloat64OrDef`. -/
def GetFloat64OrDefST (m : ConfigMap) (key : String) (d : ℚ) : ℚ × ConfigMap :=
  let (r, m1) := GetFloat64ST m key
  (match r with | .ok v => v | .error _ => d, m1)

/-- State-passing `IsNil` on a non-nil receiver (reads no map at
all). -/
def IsNilST (m : ConfigMap) : Bool × ConfigMap :=
  (false, m)

/-! ## Helper lemmas -/

/-- On the typed-nil pointer, any non-empty segment list makes the
`GetSection` loop hit the nil check and execute `return nil`
(src/section.go:101), producing the nil interface. -/
lemma getSectionLoopIface_nil :
    ∀ l : List String, l ≠ [] → getSectionLoopIface Section.nil l = SectionIface.nilIface
  | [], h => absurd rfl h
  | _ :: _, _ => rfl

/-- `splitChars` never produces the empty list of segments. -/
lemma splitChars_ne_nil (sep : Char) : ∀ l : List Char, splitChars sep l ≠ []
  | [] => by simp [splitChars]
  | c :: rest => by
      have h := splitChars_ne_nil sep rest
      unfold splitChars
      cases hs : splitChars sep rest with
      | nil => exact absurd hs h
      | cons seg segs =>
          by_cases hc : c = sep <;> simp [hc]

/-- `splitSections` never returns an empty segment list: Go
`strings.Split` always yields at least one element. -/
lemma splitSections_ne_nil (key : String) : splitSections key ≠ [] := by
  unfold splitSections
  intro h
  exact splitChars_ne_nil Delimiter key.data (List.map_eq_nil_iff.mp h)

/-- The chain of nested-mapping lookups resolves fully exactly when
the `GetSection` loop returns an interface wrapping a non-nil
pointer.  (When it does not resolve, the loop instead returns either
the typed-nil pointer — failure at the last segment — or the nil
interface — failure before it.) -/
lemma chainResolves_iff_mk :
    ∀ (l : List String) (m : ConfigMap),
      chainResolves m l = true
        ↔ ∃ m2, getSectionLoopIface (Section.mk m) l = SectionIface.mk (Section.mk m2) := by
  intro l
  induction l with
  | nil =>
      intro m
      exact ⟨fun _ => ⟨m, rfl⟩, fun _ => rfl⟩
  | cons sel rest ih =>
      intro m
      show chainResolves m (sel :: rest) = true
        ↔ ∃ m2, getSectionLoopIface (getSectionPriv m sel) rest = _
      unfold chainResolves getSectionPriv
      cases h : m.lookup sel with
      | none =>
          constructor
          · intro hc; cases hc
          · rintro ⟨m2, hm2⟩
            cases rest with
            | nil => simp [getSectionLoopIface] at hm2
            | cons b r2 => simp [getSectionLoopIface] at hm2
      | some v =>
          cases v with
          | vMap m2 => simpa using ih m2
          | vStr s =>
              constructor
              · intro hc; cases hc
              · rintro ⟨m2, hm2⟩
                cases rest with
                | nil => simp [getSectionLoopIface] at hm2
                | cons b r2 => simp [getSectionLoopIface] at hm2
          | vInt n =>
              constructor
              · intro hc; cases hc
              · rintro ⟨m2, hm2⟩
                cases rest with
                | nil => simp [getSectionLoopIface] at hm2
                | cons b r2 => simp [getSectionLoopIface] at hm2
          | vBool bb =>
              constructor
              · intro hc; cases hc
              · rintro ⟨m2, hm2⟩
                cases rest with
                | nil => simp [getSectionLoopIface] at hm2
                | cons b r2 => simp [getSectionLoopIface] at hm2
          | vFloat q =>
              constructor
              · intro hc; cases hc
              · rintro ⟨m2, hm2⟩
                cases rest with
                | nil => simp [getSectionLoopIface] at hm2
                | cons b r2 => simp [getSectionLoopIface] at hm2

/-- The single recursive selector walk of the Go code equals the
spec's dropLast/getLast decomposition. -/
lemma getValueGo_eq_specSegs :
    ∀ (sels : List String) (m : ConfigMap), getValueGo m sels = specGetValueSegs m sels := by
  intro sels
  induction sels with
  | nil => intro m; rfl
  | cons sel rest ih =>
      intro m
      cases rest with
      | nil => simp [getValueGo, specGetValueSegs, specWalk]
      | cons b rest2 =>
          show (match getSectionPriv m sel with
                | .nil => Except.error GoError.errNil
                | .mk m2 => getValueGo m2 (b :: rest2)) = _
          unfold specGetValueSegs getSectionPriv
          have hdl : (sel :: b :: rest2).dropLast = sel :: (b :: rest2).dropLast := rfl
          have hgl : (sel :: b :: rest2).getLast? = (b :: rest2).getLast? := rfl
          rw [hdl, hgl]
          cases h : m.lookup sel with
          | none =>
              simp only [specWalk, h]
              cases hl : (b :: rest2).getLast? with
              | none => rfl
              | some last => rfl
          | some v =>
              cases v with
              | vMap m2 =>
                  simp only [specWalk, h]
                  have := ih m2
                  rw [this]
                  unfold specGetValueSegs
                  rfl
              | vStr s =>
                  simp only [specWalk, h]
                  cases hl : (b :: rest2).getLast? with
                  | none => rfl
                  | some last => rfl
              | vInt n =>
                  simp only [specWalk, h]
                  cases hl : (b :: rest2).getLast? with
                  | none => rfl
                  | some last => rfl
              | vBool bb =>
                  simp only [specWalk, h]
                  cases hl : (b :: rest2).getLast? with
                  | none => rfl
                  | some last => rfl
              | vFloat q =>
                  simp only [specWalk, h]
                  cases hl : (b :: rest2).getLast? with
                  | none => rfl
                  | some last => rfl

/-- Writing back the very value a key already holds leaves the map
unchanged. -/
lemma mapWriteBack_self :
    ∀ (m : ConfigMap) (k : String) (v : Value), m.lookup k = some v → mapWriteBack m k v = m
  | .nil, _, _, h => by cases h
  | .cons k0 v0 rest, k, v, h => by
      unfold mapWriteBack
      unfold ConfigMap.lookup at h
      by_cases hk : k0 = k
      · simp only [if_pos hk] at h ⊢
        cases h
        rfl
      · simp only [if_neg hk] at h ⊢
        rw [mapWriteBack_self rest k v h]

/-- The `GetSection` loop, in state-passing form, returns the receiver
mapping unchanged. -/
lemma getSectionLoopST_snd :
    ∀ (l : List String) (m : ConfigMap), (getSectionLoopST m l).2 = m := by
  intro l
  induction l with
  | nil => intro m; rfl
  | cons sel rest ih =>
      intro m
      unfold getSectionLoopST mapReadST
      cases h : m.lookup sel with
      | none => cases rest <;> rfl
      | some v =>
          cases v with
          | vMap m2 => simpa [ih m2] using mapWriteBack_self m sel (.vMap m2) h
          | vStr s => cases rest <;> rfl
          | vInt n => cases rest <;> rfl
          | vBool b => cases rest <;> rfl
          | vFloat q => cases rest <;> rfl

/-- The `GetValue` selector walk, in state-passing form, returns the
receiver mapping unchanged. -/
lemma getValueGoST_snd :
    ∀ (l : List String) (m : ConfigMap), (getValueGoST m l).2 = m := by
  intro l
  induction l with
  | nil => intro m; rfl
  | cons sel rest ih =>
      intro m
      cases rest with
      | nil =>
          unfold getValueGoST mapReadST
          cases h : m.lookup sel <;> rfl
      | cons b rest2 =>
          unfold getValueGoST mapReadST
          cases h : m.lookup sel with
          | none => rfl
          | some v =>
              cases v with
              | vMap m2 => simpa [ih m2] using mapWriteBack_self m sel (.vMap m2) h
              | vStr s => rfl
              | vInt n => rfl
              | vBool b2 => rfl
              | vFloat q => rfl

/-- The state-passing `GetSection` loop computes the same interface
value as the pure embedding. -/
lemma getSectionLoopST_fst :
    ∀ (l : List String) (m : ConfigMap),
      (getSectionLoopST m l).1 = getSectionLoopIface (Section.mk m) l := by
  intro l
  induction l with
  | nil => intro m; rfl
  | cons sel rest ih =>
      intro m
      show _ = getSectionLoopIface (getSectionPriv m sel) rest
      unfold getSectionLoopST mapReadST getSectionPriv
      cases h : m.lookup sel with
      | none => cases rest <;> rfl
      | some v =>
          cases v with
          | vMap m2 => simpa using ih m2
          | vStr s => cases rest <;> rfl
          | vInt n => cases rest <;> rfl
          | vBool b => cases rest <;> rfl
          | vFloat q => cases rest <;> rfl

/-- Claim C1, evaluated: the part the code honors is that every
pointer-receiver operation on the typed-nil `*section` produces
absence (`ErrNil`, defaults, `IsNil = true`) without faulting.  But
`GetSection` on the typed-nil pointer executes the literal `return
nil` (src/section.go:101), yielding the nil interface, so the claim's
own chain on a tree lacking `"x"` — whose second hop runs on the
typed-nil pointer — hands the nil interface to the final
`.GetString "z"` call, which panics at runtime instead of returning
the absent error (the `code_bug` recorded for this claim). -/
theorem chained_navigation_panics_eval :
    (∀ key, Section.nil.GetValue key = .error .errNil) ∧
    (∀ key, Section.nil.GetString key = .error .errNil) ∧
    (∀ key, Section.nil.GetInt key = .error .errNil) ∧
    (∀ key, Section.nil.GetBool key = .error .errNil) ∧
    (∀ key, Section.nil.GetFloat64 key = .error .errNil) ∧
    (∀ key d, Section.nil.GetValueOrDef key d = d) ∧
    (∀ key d, Section.nil.GetStringOrDef key d = d) ∧
    (∀ key d, Section.nil.GetIntOrDef key d = d) ∧
    (∀ key d, Section.nil.GetBoolOrDef key d = d) ∧
    (∀ key d, Section.nil.GetFloat64OrDef key d = d) ∧
    Section.nil.IsNil = true ∧
    (∀ key, Section.nil.GetSection key = SectionIface.nilIface) ∧
    (Section.mk ConfigMap.nil).GetSection "x" = SectionIface.mk Section.nil ∧
    Outcome.bind ((SectionIface.mk (Section.mk ConfigMap.nil)).getSection "x")
      (fun s => s.getSection "y") = Outcome.returns SectionIface.nilIface ∧
    Outcome.bind
      (Outcome.bind ((SectionIface.mk (Section.mk ConfigMap.nil)).getSection "x")
        (fun s => s.getSection "y"))
      (fun s => s.getString "z") = Outcome.panics := by
  refine ⟨fun _ => rfl, fun _ => rfl, fun _ => rfl, fun _ => rfl, fun _ => rfl,
    fun _ _ => rfl, fun _ _ => rfl, fun _ _ => rfl, fun _ _ => rfl, fun _ _ => rfl,
    rfl, ?_, by decide, by decide, by decide⟩
  intro key
  exact getSectionLoopIface_nil (splitSections key) (splitSections_ne_nil key)

/-- Claim C2, evaluated: a fully resolving chain yields an interface
wrapping a non-nil pointer; but when the chain fails before its last
segment (here: path `"x:y"` on the empty tree), `GetSection` executes
`return nil` (src/section.go:101) and `.IsNil()` on the resulting nil
interface panics instead of returning `true` — the claimed
biconditional is false of the program (the `code_bug` recorded for
this claim).  Only a failure at the last segment (path `"x"`) returns
the typed-nil pointer, whose `.IsNil()` is safely `true`. -/
theorem getSection_isNil_panic_eval :
    (∀ (root : ConfigMap) (key : String),
        chainResolves root (splitSections key) = true
          ↔ ∃ m2, (Section.mk root).GetSection key = SectionIface.mk (Section.mk m2)) ∧
    (Section.mk ConfigMap.nil).GetSection "x:y" = SectionIface.nilIface ∧
    Outcome.bind ((SectionIface.mk (Section.mk ConfigMap.nil)).getSection "x:y")
      (fun s => s.isNil) = Outcome.panics ∧
    chainResolves ConfigMap.nil (splitSections "x:y") = false ∧
    (Section.mk ConfigMap.nil).GetSection "x" = SectionIface.mk Section.nil ∧
    Outcome.bind ((SectionIface.mk (Section.mk ConfigMap.nil)).getSection "x")
      (fun s => s.isNil) = Outcome.returns true := by
  exact ⟨fun root key => chainResolves_iff_mk (splitSections key) root,
    by decide, by decide, by decide, by decide, by decide⟩

/-- Claim C3: on a non-absent section, `GetValue` equals the spec's
decomposition: all segments except the last must resolve to nested
mappings (else `ErrNil`), then the last segment is looked up as a key
in the last resolved mapping (`ErrNil` when missing, else the raw
stored value unchanged, nested mappings included). -/
theorem getValue_matches_spec (m : ConfigMap) (key : String) :
    (Section.mk m).GetValue key = specGetValue m key :=
  getValueGo_eq_specSegs (splitSections key) m

/-- Claim C4, evaluated: a stored int `42` and a stored string `"42"`
both read back as `42` via `GetInt`; a stored string `"abc"` fails —
but with `strconv.Atoi`'s error, not the documented `ErrInvalidType`
sentinel (the `code_bug` recorded for this claim). -/
theorem getInt_roundtrip_eval :
    (Section.mk (ConfigMap.ofList [("a", Value.vInt 42)])).GetInt "a" = .ok 42 ∧
    (Section.mk (ConfigMap.ofList [("a", Value.vStr "42")])).GetInt "a" = .ok 42 ∧
    (Section.mk (ConfigMap.ofList [("a", Value.vStr "abc")])).GetInt "a"
      = .error (.numError "Atoi" "abc" "invalid syntax") ∧
    GoError.numError "Atoi" "abc" "invalid syntax" ≠ GoError.errInvalidType := by
  decide

/-- Claim C5: every default-valued getter returns exactly the plain
getter's value when it succeeds and the given default when it fails for
any reason; the (total) return type shows no error is ever
propagated. -/
theorem orDef_getters_absorb_errors (s : Section) (key : String)
    (dv : Value) (ds : String) (di : Int) (db : Bool) (df : ℚ) :
    s.GetValueOrDef key dv = ((s.GetValue key).toOption.getD dv) ∧
    s.GetStringOrDef key ds = ((s.GetString key).toOption.getD ds) ∧
    s.GetIntOrDef key di = ((s.GetInt key).toOption.getD di) ∧
    s.GetBoolOrDef key db = ((s.GetBool key).toOption.getD db) ∧
    s.GetFloat64OrDef key df = ((s.GetFloat64 key).toOption.getD df) := by
  refine ⟨?_, ?_, ?_, ?_, ?_⟩
  · cases h : s.GetValue key <;> simp [Section.GetValueOrDef, h, Except.toOption]
  · cases h : s.GetString key <;> simp [Section.GetStringOrDef, h, Except.toOption]
  · cases h : s.GetInt key <;> simp [Section.GetIntOrDef, h, Except.toOption]
  · cases h : s.GetBool key <;> simp [Section.GetBoolOrDef, h, Except.toOption]
  · cases h : s.GetFloat64 key <;> simp [Section.GetFloat64OrDef, h, Except.toOption]

/-- Claim C6: whenever `GetValue` finds a value, `GetString` never
fails: a string value is returned directly and any other value — int,
bool, float or nested mapping — is rendered via `valToString` and
returned with no error. -/
theorem getString_never_fails_on_found (s : Section) (key : String) (v : Value)
    (h : s.GetValue key = .ok v) :
    (∃ t, s.GetString key = .ok t) ∧
    s.GetString key = .ok (stringOfValue v) := by
  cases v <;> (unfold Section.GetString; rw [h]) <;> exact ⟨⟨_, rfl⟩, rfl⟩

/-- Witness for C6 at a concrete input: a stored int `7` reads back as
the string `"7"`. -/
theorem getString_never_fails_on_found_witness :
    (Section.mk (ConfigMap.ofList [("a", Value.vInt 7)])).GetString "a" = .ok "7" :=
  (getString_never_fails_on_found (Section.mk (ConfigMap.ofList [("a", Value.vInt 7)]))
    "a" (Value.vInt 7) (by decide)).2.trans (by decide)

/-- Claim C7, evaluated: the tree `{g:{e:{f:"true"}}}` yields
`GetBool "g:e:f" = true`; the `ParseBool` vocabulary (`"1"`, `"t"`,
`"0"`, `"f"`, …) coerces; but an unparsable rendering fails with
`strconv.ParseBool`'s error, not the documented `ErrInvalidType`
sentinel (the `code_bug` recorded for this claim). -/
theorem getBool_coercion_eval :
    (Section.mk (ConfigMap.ofList
        [("g", Value.vMap (ConfigMap.ofList
          [("e", Value.vMap (ConfigMap.ofList
            [("f", Value.vStr "true")]))]))])).GetBool "g:e:f" = .ok true ∧
    (Section.mk (ConfigMap.ofList [("a", Value.vStr "1")])).GetBool "a" = .ok true ∧
    (Section.mk (ConfigMap.ofList [("a", Value.vStr "t")])).GetBool "a" = .ok true ∧
    (Section.mk (ConfigMap.ofList [("a", Value.vStr "0")])).GetBool "a" = .ok false ∧
    (Section.mk (ConfigMap.ofList [("a", Value.vStr "f")])).GetBool "a" = .ok false ∧
    (Section.mk (ConfigMap.ofList [("a", Value.vStr "yes")])).GetBool "a"
      = .error (.numError "ParseBool" "yes" "invalid syntax") ∧
    GoError.numError "ParseBool" "yes" "invalid syntax" ≠ GoError.errInvalidType := by
  decide

/-- Claim C8, evaluated: on a value that cannot be coerced, `GetInt`,
`GetBool` and `GetFloat64` fail with `strconv`'s parse errors — errors
distinct from the absent error, but not the distinguished
`ErrInvalidType` sentinel and carrying the offending input rather than
the requested path (the `code_bug` recorded for this claim). -/
theorem typed_getter_error_kind_eval :
    (Section.mk (ConfigMap.ofList [("a", Value.vStr "xyz")])).GetInt "a"
      = .error (.numError "Atoi" "xyz" "invalid syntax") ∧
    (Section.mk (ConfigMap.ofList [("a", Value.vStr "xyz")])).GetBool "a"
      = .error (.numError "ParseBool" "xyz" "invalid syntax") ∧
    (Section.mk (ConfigMap.ofList [("a", Value.vStr "xyz")])).GetFloat64 "a"
      = .error (.numError "ParseFloat" "xyz" "invalid syntax") ∧
    GoError.numError "Atoi" "xyz" "invalid syntax" ≠ GoError.errInvalidType ∧
    GoError.numError "Atoi" "xyz" "invalid syntax" ≠ GoError.errNil := by
  decide

/-- Claim C9: in the state-passing embedding, every operation of the
Section interface returns the underlying mapping unchanged — no
operation writes to the tree after construction. -/
theorem section_ops_read_only (m : ConfigMap) (key : String)
    (dv : Value) (ds : String) (di : Int) (db : Bool) (df : ℚ) :
    (GetSectionST m key).2 = m ∧
    (GetValueST m key).2 = m ∧
    (GetStringST m key).2 = m ∧
    (GetIntST m key).2 = m ∧
    (GetBoolST m key).2 = m ∧
    (GetFloat64ST m key).2 = m ∧
    (GetValueOrDefST m key dv).2 = m ∧
    (GetStringOrDefST m key ds).2 = m ∧
    (GetIntOrDefST m key di).2 = m ∧
    (GetBoolOrDefST m key db).2 = m ∧
    (GetFloat64OrDefST m key df).2 = m ∧
    (IsNilST m).2 = m := by
  have hv : (GetValueST m key).2 = m := getValueGoST_snd (splitSections key) m
  exact ⟨getSectionLoopST_snd (splitSections key) m, hv, hv, hv, hv, hv,
    hv, hv, hv, hv, hv, rfl⟩

/-- Claim C10: splitting any key yields at least one segment (the empty
key yields the single segment `""`), so `GetValue`'s access of the last
segment never faults; empty segments from an empty key or leading,
trailing, or consecutive delimiters are preserved literally, and
`GetValue ""` is exactly the lookup of the key `""` in the current
mapping. -/
theorem splitSections_literal_segments :
    (∀ key, splitSections key ≠ []) ∧
    splitSections "" = [""] ∧
    splitSections ":" = ["", ""] ∧
    splitSections "a::b" = ["a", "", "b"] ∧
    (∀ m : ConfigMap, (Section.mk m).GetValue "" =
      (match m.lookup "" with
       | some v => Except.ok v
       | none => Except.error GoError.errNil)) := by
  refine ⟨splitSections_ne_nil, by decide, by decide, by decide, ?_⟩
  intro m
  show getValueGo m (splitSections "") = _
  have h : splitSections "" = [""] := by decide
  rw [h]
  rfl

/-- The state-passing `GetValue` walk computes the same result as the
pure embedding. -/
lemma getValueGoST_fst :
    ∀ (l : List String) (m : ConfigMap), (getValueGoST m l).1 = getValueGo m l := by
  intro l
  induction l with
  | nil => intro m; rfl
  | cons sel rest ih =>
      intro m
      cases rest with
      | nil =>
          unfold getValueGoST getValueGo mapReadST
          cases h : m.lookup sel <;> rfl
      | cons b rest2 =>
          show _ = (match getSectionPriv m sel with
                    | .nil => Except.error GoError.errNil
                    | .mk m2 => getValueGo m2 (b :: rest2))
          unfold getValueGoST mapReadST getSectionPriv
          cases h : m.lookup sel with
          | none => rfl
          | some v =>
              cases v with
              | vMap m2 => simpa using ih m2
              | vStr s => rfl
              | vInt n => rfl
              | vBool b2 => rfl
              | vFloat q => rfl

end Configoration
